import Mathlib

/-!
Shallow embedding of the transaction normalization and classification
pipeline of the financial-flow repository (src/utils: `applyRulesToTransaction`,
`parseRevolutCSV`, `parseMillenniumCSV`, `parseGenericXLSX`, together with the
data model of src/types.ts), and proofs of the specification claims about it.

JavaScript primitives used by the source (`String.prototype.split`,
`parseFloat`, `Number`, `toLowerCase`, `startsWith`, `includes`, `replace`,
`Math.abs`, `new Date`, `||` on strings, optional fields) are modelled
explicitly below.  Numbers are modelled as exact decimals denoting rational
values (the source only ever compares, negates and selects parsed decimal
literals, so binary floating point rounding plays no role in any claim); the
JavaScript `NaN` outcome of a failed parse is modelled as `Option.none`.
Impure identifier generation (`Date.now()`) is modelled by an explicit `now`
parameter.
-/

namespace FinFlow

/-- Closed category enumeration from src/types.ts. -/
inductive Category where
  | Food | Transport | Shopping | Entertainment
  | Health | Utilities | Income | Education | Feira | Other
  deriving DecidableEq, Repr

/-- Provenance tag of a transaction, from src/types.ts. -/
inductive Source where
  | Manual | Revolut | Millennium | XLSX
  deriving DecidableEq, Repr

/-- Direction of a transaction, from src/types.ts. -/
inductive TxType where
  | Expense | Income
  deriving DecidableEq, Repr

/-- Exact decimal number `num / 10 ^ scale`: the value class of every number
the pipeline manipulates (results of `parseFloat`/`Number` on decimal
literals, their negations and absolute values).  Working with an explicit
significand keeps every operation kernel-computable; the rational value a
`Dec` denotes is `Dec.toRat` below, and all value-level claims are stated
through it. -/
structure Dec where
  num : Int
  scale : Nat
  deriving DecidableEq, Repr

/-- Rational value denoted by an exact decimal. -/
def Dec.toRat (d : Dec) : Rat :=
  (d.num : Rat) / (10 : Rat) ^ d.scale

/-- Model of `Math.abs`. -/
def Dec.abs (d : Dec) : Dec :=
  ⟨|d.num|, d.scale⟩

/-- Whether the denoted value is negative (`x < 0` in the source). -/
def Dec.isNeg (d : Dec) : Bool :=
  d.num < 0

/-- Whether the denoted value is positive (`x > 0` in the source). -/
def Dec.isPos (d : Dec) : Bool :=
  0 < d.num

/-- Subtraction of the integer 1 (the source's `Number(month) - 1`). -/
def Dec.subOne (d : Dec) : Dec :=
  ⟨d.num - 10 ^ d.scale, d.scale⟩

/-- The denoted value as an integer, when it is one. -/
def Dec.toInt? (d : Dec) : Option Int :=
  if d.num % (10 : Int) ^ d.scale = 0 then some (d.num / (10 : Int) ^ d.scale) else none

/-- Model of a JavaScript `Date` value as the source constructs them: either
`new Date(string)` (kept symbolically, the claims never inspect such a date's
components) or `new Date(year, monthIndex, day)` where an argument that is
`NaN` is `none`. -/
inductive JSDate where
  | fromString (s : String)
  | fromYMD (year monthIndex day : Option Dec)
  deriving DecidableEq, Repr

/-- Canonical transaction record, from src/types.ts.  The optional `ignored`
field is an `Option Bool` (`none` = the field is absent / `undefined`). -/
structure Transaction where
  id : String
  date : JSDate
  description : String
  amount : Dec
  category : Category
  source : Source
  type : TxType
  ignored : Option Bool
  deriving DecidableEq, Repr

/-- Rule match mode from src/types.ts (`RuleType = 'exact' | 'starts_with'`). -/
inductive RuleType where
  | exact | starts_with
  deriving DecidableEq, Repr

/-- User-defined classification rule, from src/types.ts.  `targetCategory`
and `shouldIgnore` are optional fields. -/
structure AutoRule where
  id : String
  pattern : String
  type : RuleType
  targetCategory : Option Category
  shouldIgnore : Option Bool
  deriving DecidableEq, Repr

/-! ### Models of the JavaScript primitives used by src/utils -/

/-- Model of JavaScript `str.split(sep)` for a one-character separator, on the
character list: splitting the empty string gives `[[]]`, and separators at the
ends produce empty fields, exactly as in JavaScript. -/
def splitOnChar (sep : Char) : List Char → List (List Char)
  | [] => [[]]
  | c :: r =>
    let rest := splitOnChar sep r
    if c = sep then [] :: rest
    else
      match rest with
      | [] => [[c]]
      | h :: t => (c :: h) :: t

/-- Model of JavaScript `str.split(sep)` for a one-character separator. -/
def jsSplit (s : String) (sep : Char) : List String :=
  (splitOnChar sep s.toList).map fun l => String.mk l

/-- Model of JavaScript string truthiness used by `a || b` on strings: the
empty string is the only falsy string, so `a || b` is `b` when `a` is empty. -/
def jsOrDefault (a b : String) : String :=
  if a = "" then b else a

/-- Model of JavaScript `str.replace(',', '.')` with a plain (non-regex)
pattern: only the first occurrence of the comma is replaced. -/
def replaceFirstCommaAux : List Char → List Char
  | [] => []
  | c :: r => if c = ',' then '.' :: r else c :: replaceFirstCommaAux r

/-- Model of JavaScript `str.replace(',', '.')` (first occurrence only). -/
def replaceFirstComma (s : String) : String :=
  String.mk (replaceFirstCommaAux s.toList)

/-- Model of JavaScript `str.replace(/"/g, '')`: every quote character is
removed. -/
def stripQuotes (s : String) : String :=
  String.mk (s.toList.filter fun c => c ≠ '"')

/-- Model of JavaScript `str.toLowerCase()` (ASCII case folding, which is all
the source's patterns and keyword table exercise). -/
def jsToLower (s : String) : String :=
  String.mk (s.toList.map Char.toLower)

/-- Model of JavaScript `str.startsWith(p)`. -/
def jsStartsWith (s p : String) : Bool :=
  p.toList.isPrefixOf s.toList

/-- Containment of `sub` as a contiguous run inside a character list. -/
def infixAt (sub : List Char) : List Char → Bool
  | [] => sub.isEmpty
  | c :: r => sub.isPrefixOf (c :: r) || infixAt sub r

/-- Model of JavaScript `str.includes(p)` (substring containment). -/
def jsIncludes (s p : String) : Bool :=
  infixAt p.toList s.toList

/-- Characters treated as whitespace by the numeric parsers. -/
def isJsSpace (c : Char) : Bool :=
  c = ' ' ∨ c = '\t' ∨ c = '\n' ∨ c = '\r'

/-- Value of a digit list read in base 10. -/
def digitsVal (l : List Char) : Nat :=
  l.foldl (fun a c => a * 10 + (c.toNat - 48)) 0

/-- Model of JavaScript `parseFloat` on the decimal literals the pipeline
feeds it: leading whitespace is skipped, an optional sign is read, then a
longest prefix `digits [ '.' digits ]` is converted (trailing garbage is
ignored); if no digit is found the result is `NaN`, modelled as `none`.
Exponent notation and `Infinity`, which no bank-export field in scope uses,
are out of the modelled fragment. -/
def jsParseFloat (s : String) : Option Dec :=
  let l := s.toList.dropWhile isJsSpace
  let signed : Int × List Char :=
    match l with
    | '-' :: r => (-1, r)
    | '+' :: r => (1, r)
    | _ => (1, l)
  let intPart := signed.2.takeWhile Char.isDigit
  let rest := signed.2.dropWhile Char.isDigit
  let fracPart : List Char :=
    match rest with
    | '.' :: r => r.takeWhile Char.isDigit
    | _ => []
  if intPart.isEmpty ∧ fracPart.isEmpty then none
  else
    some ⟨signed.1 * (digitsVal intPart * 10 ^ fracPart.length + digitsVal fracPart),
      fracPart.length⟩

/-- Model of JavaScript `Number(s)` on the strings the pipeline feeds it: a
whitespace-only string converts to `0`, otherwise the whole trimmed string
must be a signed decimal literal `[sign] digits [ '.' digits ]`, else the
result is `NaN` (`none`).  Hex/exponent forms are out of the modelled
fragment. -/
def jsNumber (s : String) : Option Dec :=
  let l := (s.toList.dropWhile isJsSpace).reverse.dropWhile isJsSpace |>.reverse
  if l.isEmpty then some ⟨0, 0⟩
  else
    let signed : Int × List Char :=
      match l with
      | '-' :: r => (-1, r)
      | '+' :: r => (1, r)
      | _ => (1, l)
    let intPart := signed.2.takeWhile Char.isDigit
    let rest := signed.2.dropWhile Char.isDigit
    let fracPart : List Char :=
      match rest with
      | '.' :: r => r.takeWhile Char.isDigit
      | _ => []
    let consumed : List Char :=
      intPart ++ (match rest with | '.' :: _ => '.' :: fracPart | _ => [])
    if signed.2 = consumed ∧ ¬(intPart.isEmpty ∧ fracPart.isEmpty) then
      some ⟨signed.1 * (digitsVal intPart * 10 ^ fracPart.length + digitsVal fracPart),
        fracPart.length⟩
    else none

/-- Model of JavaScript `Number(x)` where `x` may be `undefined` (`none`):
`Number(undefined)` is `NaN`. -/
def jsNumberU : Option String → Option Dec
  | none => none
  | some s => jsNumber s

/-! ### The rule engine (src/utils: `applyRulesToTransaction`) -/

/-- Built-in keyword-to-category fallback table `DEFAULT_CATEGORY_MAP`, in
source (insertion) order, which is the iteration order of
`Object.entries` on its string keys. -/
def DEFAULT_CATEGORY_MAP : List (String × Category) :=
  [("uber", Category.Transport),
   ("bolt", Category.Transport),
   ("continente", Category.Food),
   ("pingo doce", Category.Food),
   ("lidl", Category.Food),
   ("auchan", Category.Food),
   ("netflix", Category.Entertainment),
   ("spotify", Category.Entertainment),
   ("amazon", Category.Shopping),
   ("zara", Category.Shopping),
   ("ikea", Category.Shopping),
   ("edp", Category.Utilities),
   ("galp", Category.Utilities),
   ("vodafone", Category.Utilities),
   ("salary", Category.Income),
   ("vencimento", Category.Income),
   ("refeicao", Category.Income)]

/-- Whether one rule matches the (already lower-cased) description: the
source lowers the rule's pattern and tests equality for `'exact'`, and
`startsWith` otherwise. -/
def ruleMatches (desc : String) (r : AutoRule) : Bool :=
  let p := jsToLower r.pattern
  match r.type with
  | RuleType.exact => desc == p
  | RuleType.starts_with => jsStartsWith desc p

/-- Effect of a matching rule, from the source's early return:
`category: rule.targetCategory || tx.category` (a present category is a
non-empty string, hence truthy) and
`ignored: rule.shouldIgnore !== undefined ? rule.shouldIgnore : tx.ignored`. -/
def applyRule (tx : Transaction) (r : AutoRule) : Transaction :=
  { tx with
    category := r.targetCategory.getD tx.category,
    ignored :=
      match r.shouldIgnore with
      | some b => some b
      | none => tx.ignored }

/-- First table entry whose keyword occurs in the description, scanning the
fallback table in order (the source's `for…of Object.entries` loop with an
early return). -/
def findCategory (desc : String) : List (String × Category) → Option Category
  | [] => none
  | (k, c) :: rest => if jsIncludes desc k then some c else findCategory desc rest

/-- Embedding of `applyRulesToTransaction` from src/utils: lower the
description once, scan the user rules in order and return the first match's
effect immediately; otherwise, only when the category is still `Other`,
consult the built-in keyword table; otherwise return the transaction
unchanged. -/
def applyRulesToTransaction (tx : Transaction) (rules : List AutoRule) : Transaction :=
  let desc := jsToLower tx.description
  match rules.find? (fun r => ruleMatches desc r) with
  | some r => applyRule tx r
  | none =>
    if tx.category = Category.Other then
      match findCategory desc DEFAULT_CATEGORY_MAP with
      | some c => { tx with category := c }
      | none => tx
    else tx

/-! ### Format A: `parseRevolutCSV` (comma-delimited) -/

/-- Loop body of `parseRevolutCSV` for line number `i` (the source's loop
index, used only in the generated id): fewer than 6 comma-separated columns
or a non-numeric amount in column 5 skips the row; the date string is column
3, or column 2 when column 3 is empty (`cols[3] || cols[2]`); the
description is column 4 with quote characters stripped; the stored amount is
the absolute value and the sign picks the type. -/
def revRow (i : Nat) (line : String) (now : Nat) : Option Transaction :=
  let cols := jsSplit line ','
  if cols.length < 6 then none
  else
    match jsParseFloat (cols.getD 5 "") with
    | none => none
    | some a =>
      some
        { id := "rev-" ++ toString i ++ "-" ++ toString now,
          date := JSDate.fromString (jsOrDefault (cols.getD 3 "") (cols.getD 2 "")),
          description := stripQuotes (cols.getD 4 ""),
          amount := a.abs,
          category := Category.Other,
          source := Source.Revolut,
          type := if a.isNeg then TxType.Expense else TxType.Income,
          ignored := none }

/-- The source's `for (let i = 1; i < lines.length; i++)` loop, processing
each remaining line with its 1-based index. -/
def revRows (now : Nat) : Nat → List String → List Transaction
  | _, [] => []
  | i, l :: ls =>
    match revRow i l now with
    | some t => t :: revRows now (i + 1) ls
    | none => revRows now (i + 1) ls

/-- Embedding of `parseRevolutCSV` from src/utils: split the text on
newlines and run the row loop from index 1 (line 0 is never processed). -/
def parseRevolutCSV (text : String) (now : Nat) : List Transaction :=
  revRows now 1 (jsSplit text '\n').tail

/-! ### Format B: `parseMillenniumCSV` (semicolon-delimited) -/

/-- The date field of a Format B row: column 0 of the semicolon split. -/
def millDateStr (line : String) : String :=
  (jsSplit line ';').getD 0 ""

/-- The string handed to `parseFloat` for the debit field of a Format B row:
column 3 with the first comma turned into a dot, defaulting to `"0"` when
empty (`cols[3]?.replace(',', '.') || '0'`). -/
def millDebitStr (line : String) : String :=
  jsOrDefault (replaceFirstComma ((jsSplit line ';').getD 3 "")) "0"

/-- The string handed to `parseFloat` for the credit field of a Format B
row: column 4, treated like the debit field. -/
def millCreditStr (line : String) : String :=
  jsOrDefault (replaceFirstComma ((jsSplit line ';').getD 4 "")) "0"

/-- Date construction of `parseMillenniumCSV`:
`const [day, month, year] = dateStr.split('-')` (a missing part is
`undefined`, whose `Number` is `NaN`) and
`new Date(Number(year), Number(month) - 1, Number(day))`. -/
def millDate (dateStr : String) : JSDate :=
  let parts := jsSplit dateStr '-'
  JSDate.fromYMD (jsNumberU (parts.get? 2))
    ((jsNumberU (parts.get? 1)).map Dec.subOne)
    (jsNumberU (parts.get? 0))

/-- Loop body of `parseMillenniumCSV` for line number `i`: fewer than 5
semicolon-separated columns skips the row; the row is also skipped when the
date field is empty or `debit + credit` is `NaN`, i.e. when either field
fails to parse; otherwise the amount is the debit when positive, else the
credit, and a positive debit means `Expense`. -/
def millRow (i : Nat) (line : String) (now : Nat) : Option Transaction :=
  let cols := jsSplit line ';'
  if cols.length < 5 then none
  else
    match jsParseFloat (millDebitStr line), jsParseFloat (millCreditStr line) with
    | some debit, some credit =>
      if millDateStr line = "" then none
      else
        some
          { id := "mil-" ++ toString i ++ "-" ++ toString now,
            date := millDate (millDateStr line),
            description := cols.getD 2 "",
            amount := if debit.isPos then debit else credit,
            category := Category.Other,
            source := Source.Millennium,
            type := if debit.isPos then TxType.Expense else TxType.Income,
            ignored := none }
    | _, _ => none

/-- The source's `for (let i = 1; i < lines.length; i++)` loop for Format B. -/
def millRows (now : Nat) : Nat → List String → List Transaction
  | _, [] => []
  | i, l :: ls =>
    match millRow i l now with
    | some t => t :: millRows now (i + 1) ls
    | none => millRows now (i + 1) ls

/-- Embedding of `parseMillenniumCSV` from src/utils: split on newlines and
run the row loop from index 1 (line 0 is never processed). -/
def parseMillenniumCSV (text : String) (now : Nat) : List Transaction :=
  millRows now 1 (jsSplit text '\n').tail

/-! ### Format C: `parseGenericXLSX` (generic tabular rows) -/

/-- Model of reading `row[k]` from a sheet row (an association list from
header to cell text) and coercing with `String(...)`: a missing key, or a
missing column for an `undefined` key, reads as the string "undefined". -/
def cellString (row : List (String × String)) : Option String → String
  | none => "undefined"
  | some k => ((row.find? fun p => p.1 == k).map Prod.snd).getD "undefined"

/-- Heuristic column lookup of `parseGenericXLSX`:
`keys.find(pred) || keys[idx]` (when the scan finds nothing, the fallback
index is used whatever it holds; `none` models `undefined`). -/
def findKey (keys : List String) (pred : String → Bool) (idx : Nat) : Option String :=
  match keys.find? pred with
  | some k => some k
  | none => keys.get? idx

/-- Row mapping of `parseGenericXLSX`, with the external pieces (file
reading, the XLSX workbook decoding and `sheet_to_json`) abstracted away: the
input is the sheet's rows as header-to-cell-text association lists.  The
amount cell has its first comma replaced by a dot before `parseFloat`; the
stored amount is the absolute value; rows whose amount is `NaN` or whose
description is empty are dropped (the source builds the record first and
filters after, which yields the same surviving records). -/
def xlsxRow (i : Nat) (row : List (String × String)) (now : Nat) : Option Transaction :=
  let keys := row.map Prod.fst
  let dateKey := findKey keys
    (fun k => jsIncludes (jsToLower k) "data" || jsIncludes (jsToLower k) "date") 0
  let descKey := findKey keys
    (fun k => jsIncludes (jsToLower k) "desc" || jsIncludes (jsToLower k) "info") 1
  let amountKey := findKey keys
    (fun k => jsIncludes (jsToLower k) "val" || jsIncludes (jsToLower k) "amount" ||
      jsIncludes (jsToLower k) "quant") 2
  match jsParseFloat (replaceFirstComma (cellString row amountKey)) with
  | none => none
  | some a =>
    if cellString row descKey = "" then none
    else
      some
        { id := "xls-" ++ toString i ++ "-" ++ toString now,
          date := JSDate.fromString (cellString row dateKey),
          description := cellString row descKey,
          amount := a.abs,
          category := Category.Other,
          source := Source.XLSX,
          type := if a.isNeg then TxType.Expense else TxType.Income,
          ignored := none }

/-- The `json.map((row, i) => …)` loop of `parseGenericXLSX`, 0-based. -/
def xlsxRows (now : Nat) : Nat → List (List (String × String)) → List Transaction
  | _, [] => []
  | i, r :: rs =>
    match xlsxRow i r now with
    | some t => t :: xlsxRows now (i + 1) rs
    | none => xlsxRows now (i + 1) rs

/-- Embedding of the pure core of `parseGenericXLSX` from src/utils, over the
decoded sheet rows. -/
def parseGenericXLSX (rows : List (List (String × String))) (now : Nat) : List Transaction :=
  xlsxRows now 0 rows

/-! ### Calendar reading of a constructed date -/

/-- Gregorian leap-year test. -/
def isLeapYear (y : Int) : Bool :=
  (y % 4 = 0 ∧ y % 100 ≠ 0) ∨ y % 400 = 0

/-- Days in the month with 0-based index `m` of year `y`. -/
def daysInMonth (y : Int) (m : Int) : Int :=
  if m = 1 then (if isLeapYear y then 29 else 28)
  else if m = 3 ∨ m = 5 ∨ m = 8 ∨ m = 10 then 30
  else 31

/-- Calendar components `(getFullYear, getMonth + 1, getDate)` of a date, as
JavaScript reports them for `new Date(year, monthIndex, day)` with integral,
in-range arguments (the only dates whose components any claim inspects; the
out-of-range normalization JavaScript would perform is outside the modelled
fragment, as is component reading of string-constructed dates).  The month is
reported 1-based: `1` is January. -/
def JSDate.calendarYMD : JSDate → Option (Int × Int × Int)
  | JSDate.fromString _ => none
  | JSDate.fromYMD none _ _ => none
  | JSDate.fromYMD _ none _ => none
  | JSDate.fromYMD _ _ none => none
  | JSDate.fromYMD (some y) (some m) (some d) =>
    match y.toInt?, m.toInt?, d.toInt? with
    | some yi, some mi, some di =>
      if 0 ≤ mi ∧ mi ≤ 11 ∧ 1 ≤ di ∧ di ≤ daysInMonth yi mi then
        some (yi, mi + 1, di)
      else none
    | _, _, _ => none

/-! ### Claim theorems -/

/-- Transaction that the Format B example row is expected to produce (line
index 1, `now` fixed to 0). -/
def pingoDoceTx : Transaction :=
  { id := "mil-1-0",
    date := JSDate.fromYMD (some ⟨2024, 0⟩) (some ⟨0, 0⟩) (some ⟨5, 0⟩),
    description := "Pingo Doce",
    amount := ⟨1250, 2⟩,
    category := Category.Other,
    source := Source.Millennium,
    type := TxType.Expense,
    ignored := none }

/-- Concrete transaction used to exercise the rule-order theorem: its
description matches the second and third witness rules but not the first. -/
def netflixTx : Transaction :=
  { id := "t-netflix",
    date := JSDate.fromString "2024-01-01",
    description := "Netflix Subscription",
    amount := ⟨780, 2⟩,
    category := Category.Other,
    source := Source.Manual,
    type := TxType.Expense,
    ignored := none }

/-- Witness rule whose exact pattern does not match `netflixTx`. -/
def ruleExactNetflix : AutoRule :=
  { id := "r-exact",
    pattern := "netflix",
    type := RuleType.exact,
    targetCategory := some Category.Shopping,
    shouldIgnore := none }

/-- Witness rule that matches `netflixTx` by starts-with. -/
def ruleStartsNetflix : AutoRule :=
  { id := "r-starts",
    pattern := "Netflix",
    type := RuleType.starts_with,
    targetCategory := some Category.Entertainment,
    shouldIgnore := none }

/-- Witness rule placed after the match, to show it is never evaluated. -/
def ruleLater : AutoRule :=
  { id := "r-later",
    pattern := "",
    type := RuleType.starts_with,
    targetCategory := some Category.Feira,
    shouldIgnore := some true }

/-- Concrete transaction whose description holds the built-in keyword
"lidl" and none of the keywords before it in the table. -/
def lidlTx : Transaction :=
  { id := "t-lidl",
    date := JSDate.fromString "2024-03-03",
    description := "LIDL Maia",
    amount := ⟨10, 0⟩,
    category := Category.Other,
    source := Source.Manual,
    type := TxType.Expense,
    ignored := some false }

/-- Witness rule that does not match `lidlTx`. -/
def ruleExactUber : AutoRule :=
  { id := "r-uber",
    pattern := "uber",
    type := RuleType.exact,
    targetCategory := some Category.Transport,
    shouldIgnore := some true }

/-- Empty-pattern starts-with rule with no target category. -/
def ruleEmptyStarts : AutoRule :=
  { id := "r-empty",
    pattern := "",
    type := RuleType.starts_with,
    targetCategory := none,
    shouldIgnore := some true }

/-- Concrete transaction with a non-`Other` category, for the empty-pattern
rule witness. -/
def healthTx : Transaction :=
  { id := "t-health",
    date := JSDate.fromString "2024-04-04",
    description := "Farmacia Central",
    amount := ⟨15, 0⟩,
    category := Category.Health,
    source := Source.Manual,
    type := TxType.Expense,
    ignored := none }

/-- Transaction produced by the Format A witness row
`a,b,c,2024-01-01,d,5` at line index 1 with `now = 0`. -/
def revWitnessTx : Transaction :=
  { id := "rev-1-0",
    date := JSDate.fromString "2024-01-01",
    description := "d",
    amount := ⟨5, 0⟩,
    category := Category.Other,
    source := Source.Revolut,
    type := TxType.Income,
    ignored := none }

/-- C8: the Format B data row `05-01-2024;;Pingo Doce;12,50;` (after a header
line) yields exactly one transaction; its date reads back as calendar date
year 2024, month 1 (January), day 5, its description is "Pingo Doce", its
amount denotes the value 12.50, its type is Expense and its category is
`Other`; applying the rule engine with no user rules then assigns `Food`,
and indeed via the built-in table entry for the keyword "pingo doce", which
occurs in the lower-cased description. -/
theorem millennium_pingo_doce_example :
    parseMillenniumCSV "Data;Desc2;Desc;Deb;Cred\n05-01-2024;;Pingo Doce;12,50;" 0 =
        [pingoDoceTx] ∧
    pingoDoceTx.date.calendarYMD = some (2024, 1, 5) ∧
    pingoDoceTx.amount.toRat = 25 / 2 ∧
    (applyRulesToTransaction pingoDoceTx []).category = Category.Food ∧
    ("pingo doce", Category.Food) ∈ DEFAULT_CATEGORY_MAP ∧
    jsIncludes (jsToLower pingoDoceTx.description) "pingo doce" = true := by
  refine ⟨by decide, by decide, ?_, by decide, by decide, by decide⟩
  show ((1250 : Int) : Rat) / (10 : Rat) ^ (2 : Nat) = 25 / 2
  norm_num

/-! ### Helper lemmas about the rule engine -/

theorem find?_skip {α : Type} (p : α → Bool) (pre l : List α)
    (h : ∀ x ∈ pre, p x = false) : (pre ++ l).find? p = l.find? p := by
  induction pre with
  | nil => rfl
  | cons a t ih =>
    have ha : p a = false := h a (List.mem_cons_self a t)
    rw [List.cons_append, List.find?_cons_of_neg _ (by simp [ha])]
    exact ih fun x hx => h x (List.mem_cons_of_mem a hx)

theorem findCategory_skip (desc : String) (mp ms : List (String × Category))
    (h : ∀ p ∈ mp, jsIncludes desc p.1 = false) :
    findCategory desc (mp ++ ms) = findCategory desc ms := by
  induction mp with
  | nil => rfl
  | cons a t ih =>
    obtain ⟨k, c⟩ := a
    have ha : jsIncludes desc k = false := h (k, c) (List.mem_cons_self _ _)
    simp only [List.cons_append, findCategory, ha, Bool.false_eq_true, if_false]
    exact ih fun p hp => h p (List.mem_cons_of_mem _ hp)

theorem findCategory_mem (desc : String) :
    ∀ (m : List (String × Category)) (c : Category),
      findCategory desc m = some c → ∃ k, (k, c) ∈ m := by
  intro m
  induction m with
  | nil => intro c h; simp [findCategory] at h
  | cons a t ih =>
    obtain ⟨k, c0⟩ := a
    intro c h
    by_cases hk : jsIncludes desc k = true
    · simp only [findCategory, hk, if_true, Option.some.injEq] at h
      exact ⟨k, by simp [h]⟩
    · simp only [findCategory, hk, if_false] at h
      obtain ⟨k1, hk1⟩ := ih c h
      exact ⟨k1, List.mem_cons_of_mem _ hk1⟩

theorem applyRules_of_find_some {tx : Transaction} {rules : List AutoRule} {r : AutoRule}
    (h : rules.find? (fun r0 => ruleMatches (jsToLower tx.description) r0) = some r) :
    applyRulesToTransaction tx rules = applyRule tx r := by
  simp only [applyRulesToTransaction, h]

theorem applyRules_of_find_none_other {tx : Transaction} {rules : List AutoRule}
    (h : rules.find? (fun r0 => ruleMatches (jsToLower tx.description) r0) = none)
    (hc : tx.category = Category.Other) :
    applyRulesToTransaction tx rules =
      match findCategory (jsToLower tx.description) DEFAULT_CATEGORY_MAP with
      | some c => { tx with category := c }
      | none => tx := by
  simp only [applyRulesToTransaction, h, hc, if_true]

theorem applyRules_of_find_none_not_other {tx : Transaction} {rules : List AutoRule}
    (h : rules.find? (fun r0 => ruleMatches (jsToLower tx.description) r0) = none)
    (hc : ¬tx.category = Category.Other) :
    applyRulesToTransaction tx rules = tx := by
  simp only [applyRulesToTransaction, h, hc, if_false]

theorem applyRule_description (tx : Transaction) (r : AutoRule) :
    (applyRule tx r).description = tx.description := rfl

theorem applyRule_idem (tx : Transaction) (r : AutoRule) :
    applyRule (applyRule tx r) r = applyRule tx r := by
  unfold applyRule
  cases r.targetCategory <;> cases r.shouldIgnore <;> simp

theorem applyRules_preserves (tx : Transaction) (rules : List AutoRule) :
    (applyRulesToTransaction tx rules).id = tx.id ∧
    (applyRulesToTransaction tx rules).date = tx.date ∧
    (applyRulesToTransaction tx rules).description = tx.description ∧
    (applyRulesToTransaction tx rules).amount = tx.amount ∧
    (applyRulesToTransaction tx rules).source = tx.source ∧
    (applyRulesToTransaction tx rules).type = tx.type := by
  cases hf : rules.find? (fun r0 => ruleMatches (jsToLower tx.description) r0) with
  | some r => rw [applyRules_of_find_some hf]; exact ⟨rfl, rfl, rfl, rfl, rfl, rfl⟩
  | none =>
    by_cases hc : tx.category = Category.Other
    · rw [applyRules_of_find_none_other hf hc]
      cases findCategory (jsToLower tx.description) DEFAULT_CATEGORY_MAP with
      | some c => exact ⟨rfl, rfl, rfl, rfl, rfl, rfl⟩
      | none => exact ⟨rfl, rfl, rfl, rfl, rfl, rfl⟩
    · rw [applyRules_of_find_none_not_other hf hc]
      exact ⟨rfl, rfl, rfl, rfl, rfl, rfl⟩

/-- C2: scanning any rule list `pre ++ r :: post` in order, if no rule of
`pre` matches the lower-cased description and `r` does (equality for exact
mode, starts-with otherwise, both on lower-cased strings, as `ruleMatches`
states), then the engine returns exactly `r`'s effects applied to the
transaction: the rules in `post` are irrelevant, and the result is
`applyRule tx r` — never the keyword fallback — even when `r` has no
`targetCategory`. -/
theorem first_matching_rule_wins (tx : Transaction) (pre : List AutoRule) (r : AutoRule)
    (post : List AutoRule)
    (hpre : ∀ r0 ∈ pre, ruleMatches (jsToLower tx.description) r0 = false)
    (hr : ruleMatches (jsToLower tx.description) r = true) :
    applyRulesToTransaction tx (pre ++ r :: post) = applyRule tx r := by
  apply applyRules_of_find_some
  rw [find?_skip _ _ _ hpre]
  exact List.find?_cons_of_pos _ hr

/-- Witness for C2 at concrete inputs: an exact-mode rule on "netflix" does
not match the description "Netflix Subscription", the starts-with rule after
it does, and a later universally-matching rule is ignored. -/
theorem first_matching_rule_wins_witness :
    applyRulesToTransaction netflixTx ([ruleExactNetflix] ++ ruleStartsNetflix :: [ruleLater]) =
      applyRule netflixTx ruleStartsNetflix :=
  first_matching_rule_wins netflixTx [ruleExactNetflix] ruleStartsNetflix [ruleLater]
    (by decide) (by decide)

/-- C3: when no user rule matches the lower-cased description, (a) a
transaction whose category is not `Other` is returned completely unchanged,
(b) the `ignored` field is never modified, and (c) for a transaction still at
`Other`, the first entry of the built-in keyword table whose keyword occurs
anywhere in the lower-cased description sets the category (all earlier
entries not occurring). -/
theorem keyword_fallback_guarded (tx : Transaction) (rules : List AutoRule)
    (hnone : ∀ r0 ∈ rules, ruleMatches (jsToLower tx.description) r0 = false) :
    (tx.category ≠ Category.Other → applyRulesToTransaction tx rules = tx) ∧
    (applyRulesToTransaction tx rules).ignored = tx.ignored ∧
    (∀ mp ms (k : String) (c : Category),
      DEFAULT_CATEGORY_MAP = mp ++ (k, c) :: ms →
      (∀ p ∈ mp, jsIncludes (jsToLower tx.description) p.1 = false) →
      jsIncludes (jsToLower tx.description) k = true →
      tx.category = Category.Other →
      applyRulesToTransaction tx rules = { tx with category := c }) := by
  have hf : rules.find? (fun r0 => ruleMatches (jsToLower tx.description) r0) = none :=
    List.find?_eq_none.mpr fun x hx => by simp [hnone x hx]
  refine ⟨fun hc => applyRules_of_find_none_not_other hf hc, ?_, ?_⟩
  · by_cases hc : tx.category = Category.Other
    · rw [applyRules_of_find_none_other hf hc]
      cases findCategory (jsToLower tx.description) DEFAULT_CATEGORY_MAP with
      | some c => rfl
      | none => rfl
    · rw [applyRules_of_find_none_not_other hf hc]
  · intro mp ms k c hsplit hmp hk hc
    rw [applyRules_of_find_none_other hf hc, hsplit, findCategory_skip _ _ _ hmp]
    simp [findCategory, hk]

/-- Witness for C3 at concrete inputs: with one non-matching rule, the
transaction described "LIDL Maia" (category `Other`) gets `Food` from the
"lidl" entry, the fifth entry of the table, none of the first four keywords
occurring in the description. -/
theorem keyword_fallback_guarded_witness :
    applyRulesToTransaction lidlTx [ruleExactUber] = { lidlTx with category := Category.Food } :=
  (keyword_fallback_guarded lidlTx [ruleExactUber] (by decide)).2.2
    [("uber", Category.Transport), ("bolt", Category.Transport),
      ("continente", Category.Food), ("pingo doce", Category.Food)]
    [("auchan", Category.Food),
      ("netflix", Category.Entertainment), ("spotify", Category.Entertainment),
      ("amazon", Category.Shopping), ("zara", Category.Shopping),
      ("ikea", Category.Shopping), ("edp", Category.Utilities),
      ("galp", Category.Utilities), ("vodafone", Category.Utilities),
      ("salary", Category.Income), ("vencimento", Category.Income),
      ("refeicao", Category.Income)]
    "lidl" Category.Food (by decide) (by decide) (by decide) (by decide)

/-- C7: a rule whose pattern is the empty string and whose mode is
starts-with matches every description: placed first, its effects are applied
to any transaction, no further rule and no fallback being consulted (the
result is exactly `applyRule tx r`, whatever comes after). -/
theorem empty_pattern_rule_matches_everything (tx : Transaction) (r : AutoRule)
    (rest : List AutoRule) (hp : r.pattern = "") (ht : r.type = RuleType.starts_with) :
    applyRulesToTransaction tx (r :: rest) = applyRule tx r := by
  have hm : ruleMatches (jsToLower tx.description) r = true := by
    simp only [ruleMatches, hp, ht]
    show jsStartsWith (jsToLower tx.description) (jsToLower "") = true
    show ((jsToLower "").toList).isPrefixOf ((jsToLower tx.description).toList) = true
    have he : (jsToLower "").toList = ([] : List Char) := rfl
    rw [he]
    cases (jsToLower tx.description).toList with
    | nil => rfl
    | cons a l => rfl
  exact applyRules_of_find_some (List.find?_cons_of_pos _ hm)

/-- Witness for C7 at concrete inputs: the empty-pattern starts-with rule
(with no target category) captures a transaction whose category is already
non-`Other` and whose description is arbitrary; the later rules are never
reached. -/
theorem empty_pattern_rule_matches_everything_witness :
    applyRulesToTransaction healthTx (ruleEmptyStarts :: [ruleExactNetflix]) =
      applyRule healthTx ruleEmptyStarts :=
  empty_pattern_rule_matches_everything healthTx ruleEmptyStarts [ruleExactNetflix] rfl rfl

/-- C9: the rule engine can change at most the `category` and `ignored`
fields: `id`, `date`, `description`, `amount`, `source` and `type` are
returned unchanged for every transaction and every rule list. -/
theorem classify_frame (tx : Transaction) (rules : List AutoRule) :
    (applyRulesToTransaction tx rules).id = tx.id ∧
    (applyRulesToTransaction tx rules).date = tx.date ∧
    (applyRulesToTransaction tx rules).description = tx.description ∧
    (applyRulesToTransaction tx rules).amount = tx.amount ∧
    (applyRulesToTransaction tx rules).source = tx.source ∧
    (applyRulesToTransaction tx rules).type = tx.type :=
  applyRules_preserves tx rules

theorem default_map_ne_other : ∀ p ∈ DEFAULT_CATEGORY_MAP, p.2 ≠ Category.Other := by
  decide

/-- C6: the rule engine is idempotent for a fixed rule list: classifying an
already-classified transaction with the same rules returns it unchanged,
whether the first pass hit a user rule, a fallback keyword, or nothing. -/
theorem classify_idempotent (tx : Transaction) (rules : List AutoRule) :
    applyRulesToTransaction (applyRulesToTransaction tx rules) rules =
      applyRulesToTransaction tx rules := by
  cases hf : rules.find? (fun r0 => ruleMatches (jsToLower tx.description) r0) with
  | some r =>
    have h1 : applyRulesToTransaction tx rules = applyRule tx r := applyRules_of_find_some hf
    rw [h1]
    have hf2 : rules.find?
        (fun r0 => ruleMatches (jsToLower (applyRule tx r).description) r0) = some r := hf
    rw [applyRules_of_find_some hf2]
    exact applyRule_idem tx r
  | none =>
    by_cases hc : tx.category = Category.Other
    · have h1 := applyRules_of_find_none_other hf hc
      cases hm : findCategory (jsToLower tx.description) DEFAULT_CATEGORY_MAP with
      | none =>
        have h2 : applyRulesToTransaction tx rules = tx := by rw [h1, hm]
        rw [h2]
        exact h2
      | some c =>
        have h2 : applyRulesToTransaction tx rules = { tx with category := c } := by
          rw [h1, hm]
        rw [h2]
        have hcne : c ≠ Category.Other := by
          obtain ⟨k, hkmem⟩ := findCategory_mem (jsToLower tx.description)
            DEFAULT_CATEGORY_MAP c hm
          exact default_map_ne_other (k, c) hkmem
        exact applyRules_of_find_none_not_other hf hcne
    · have h1 := applyRules_of_find_none_not_other hf hc
      rw [h1]
      exact h1

/-- C10: neither line parser ever looks at the first line of its input: the
output depends only on the lines after the first, so any two texts agreeing
after their first newline-separated line parse identically. -/
theorem first_line_always_skipped (t t' : String) (now : Nat)
    (h : (jsSplit t '\n').tail = (jsSplit t' '\n').tail) :
    parseRevolutCSV t now = parseRevolutCSV t' now ∧
    parseMillenniumCSV t now = parseMillenniumCSV t' now := by
  unfold parseRevolutCSV parseMillenniumCSV
  rw [h]
  exact ⟨rfl, rfl⟩

/-- Witness for C10 at concrete inputs: a text whose first line is a
well-formed six-column Format A data row parses exactly like one whose first
line is empty. -/
theorem first_line_always_skipped_witness :
    parseRevolutCSV "1,2,3,4,5,6\nX" 0 = parseRevolutCSV "\nX" 0 ∧
    parseMillenniumCSV "1,2,3,4,5,6\nX" 0 = parseMillenniumCSV "\nX" 0 :=
  first_line_always_skipped "1,2,3,4,5,6\nX" "\nX" 0 (by decide)

/-! ### Helper lemmas about the parsers and decimal values -/

theorem Dec.toRat_nonneg_of_not_neg (d : Dec) (h : d.isNeg = false) : 0 ≤ d.toRat := by
  have h0 : 0 ≤ d.num := Int.not_lt.mp (by simpa [Dec.isNeg] using h)
  unfold Dec.toRat
  apply div_nonneg
  · exact_mod_cast h0
  · positivity

theorem Dec.toRat_nonneg_of_pos (d : Dec) (h : d.isPos = true) : 0 ≤ d.toRat := by
  have h0 : 0 ≤ d.num := le_of_lt (by simpa [Dec.isPos] using h)
  unfold Dec.toRat
  apply div_nonneg
  · exact_mod_cast h0
  · positivity

theorem Dec.abs_toRat_nonneg (d : Dec) : 0 ≤ (Dec.abs d).toRat := by
  unfold Dec.toRat Dec.abs
  apply div_nonneg
  · exact_mod_cast abs_nonneg d.num
  · positivity

theorem mem_revRows {tx : Transaction} (now : Nat) :
    ∀ (i : Nat) (ls : List String), tx ∈ revRows now i ls →
      ∃ j l, l ∈ ls ∧ revRow j l now = some tx := by
  intro i ls
  induction ls generalizing i with
  | nil => intro h; simp [revRows] at h
  | cons a t ih =>
    intro h
    unfold revRows at h
    cases hr : revRow i a now with
    | some tx0 =>
      rw [hr] at h
      rcases List.mem_cons.mp h with h1 | h2
      · exact ⟨i, a, List.mem_cons_self _ _, by rw [hr, h1]⟩
      · obtain ⟨j, l, hl, hrow⟩ := ih (i + 1) h2
        exact ⟨j, l, List.mem_cons_of_mem _ hl, hrow⟩
    | none =>
      rw [hr] at h
      obtain ⟨j, l, hl, hrow⟩ := ih (i + 1) h
      exact ⟨j, l, List.mem_cons_of_mem _ hl, hrow⟩

theorem mem_millRows {tx : Transaction} (now : Nat) :
    ∀ (i : Nat) (ls : List String), tx ∈ millRows now i ls →
      ∃ j l, l ∈ ls ∧ millRow j l now = some tx := by
  intro i ls
  induction ls generalizing i with
  | nil => intro h; simp [millRows] at h
  | cons a t ih =>
    intro h
    unfold millRows at h
    cases hr : millRow i a now with
    | some tx0 =>
      rw [hr] at h
      rcases List.mem_cons.mp h with h1 | h2
      · exact ⟨i, a, List.mem_cons_self _ _, by rw [hr, h1]⟩
      · obtain ⟨j, l, hl, hrow⟩ := ih (i + 1) h2
        exact ⟨j, l, List.mem_cons_of_mem _ hl, hrow⟩
    | none =>
      rw [hr] at h
      obtain ⟨j, l, hl, hrow⟩ := ih (i + 1) h
      exact ⟨j, l, List.mem_cons_of_mem _ hl, hrow⟩

theorem mem_xlsxRows {tx : Transaction} (now : Nat) :
    ∀ (i : Nat) (ls : List (List (String × String))), tx ∈ xlsxRows now i ls →
      ∃ j l, l ∈ ls ∧ xlsxRow j l now = some tx := by
  intro i ls
  induction ls generalizing i with
  | nil => intro h; simp [xlsxRows] at h
  | cons a t ih =>
    intro h
    unfold xlsxRows at h
    cases hr : xlsxRow i a now with
    | some tx0 =>
      rw [hr] at h
      rcases List.mem_cons.mp h with h1 | h2
      · exact ⟨i, a, List.mem_cons_self _ _, by rw [hr, h1]⟩
      · obtain ⟨j, l, hl, hrow⟩ := ih (i + 1) h2
        exact ⟨j, l, List.mem_cons_of_mem _ hl, hrow⟩
    | none =>
      rw [hr] at h
      obtain ⟨j, l, hl, hrow⟩ := ih (i + 1) h
      exact ⟨j, l, List.mem_cons_of_mem _ hl, hrow⟩

theorem revRow_inv {i : Nat} {line : String} {now : Nat} {tx : Transaction}
    (h : revRow i line now = some tx) :
    ∃ a, jsParseFloat ((jsSplit line ',').getD 5 "") = some a ∧
      tx.amount = a.abs ∧
      tx.date = JSDate.fromString
        (jsOrDefault ((jsSplit line ',').getD 3 "") ((jsSplit line ',').getD 2 "")) := by
  unfold revRow at h
  by_cases h6 : (jsSplit line ',').length < 6
  · simp [h6] at h
  · simp only [h6, if_false] at h
    cases hp : jsParseFloat ((jsSplit line ',').getD 5 "") with
    | none => rw [hp] at h; exact absurd h (by simp)
    | some a =>
      rw [hp] at h
      refine ⟨a, rfl, ?_, ?_⟩
      · rw [← Option.some.injEq] at h
        cases h
        rfl
      · cases h
        rfl

theorem millRow_inv {i : Nat} {line : String} {now : Nat} {tx : Transaction}
    (h : millRow i line now = some tx) :
    ∃ db cr, jsParseFloat (millDebitStr line) = some db ∧
      jsParseFloat (millCreditStr line) = some cr ∧
      tx.amount = (if db.isPos then db else cr) := by
  unfold millRow at h
  by_cases h5 : (jsSplit line ';').length < 5
  · simp [h5] at h
  · simp only [h5, if_false] at h
    cases hdb : jsParseFloat (millDebitStr line) with
    | none => rw [hdb] at h; exact absurd h (by simp)
    | some db =>
      cases hcr : jsParseFloat (millCreditStr line) with
      | none => rw [hdb, hcr] at h; exact absurd h (by simp)
      | some cr =>
        rw [hdb, hcr] at h
        by_cases hd : millDateStr line = ""
        · simp [hd] at h
        · simp only [hd, if_false, Option.some.injEq] at h
          refine ⟨db, cr, rfl, rfl, ?_⟩
          rw [← h]

theorem xlsxRow_inv {i : Nat} {row : List (String × String)} {now : Nat} {tx : Transaction}
    (h : xlsxRow i row now = some tx) :
    ∃ a : Dec, tx.amount = a.abs := by
  simp only [xlsxRow] at h
  cases hp : jsParseFloat (replaceFirstComma (cellString row
      (findKey (row.map Prod.fst)
        (fun k => jsIncludes (jsToLower k) "val" || jsIncludes (jsToLower k) "amount" ||
          jsIncludes (jsToLower k) "quant") 2))) with
  | none => rw [hp] at h; exact absurd h (by simp)
  | some a =>
    rw [hp] at h
    by_cases hd : cellString row
        (findKey (row.map Prod.fst)
          (fun k => jsIncludes (jsToLower k) "desc" || jsIncludes (jsToLower k) "info") 1) = ""
    · simp [hd] at h
    · simp only [hd, if_false, Option.some.injEq] at h
      refine ⟨a, ?_⟩
      rw [← h]

/-- C1 (counterexample): `parseMillenniumCSV` can output a transaction whose
amount is negative.  On a 5-column row whose debit field is empty (treated as
0, not positive) and whose credit field holds `-5`, the stored amount is the
credit, whose value is `-5 < 0`: the normalization invariant `amount ≥ 0`
does not hold for this extractor. -/
theorem millennium_amount_negative_counterexample :
    (parseMillenniumCSV "header\n01-01-2024;;X;;-5" 0).map (fun t => t.amount) =
      [⟨-5, 0⟩] ∧ (⟨-5, 0⟩ : Dec).toRat < 0 := by
  constructor
  · decide
  · show ((-5 : Int) : Rat) / (10 : Rat) ^ (0 : Nat) < 0
    norm_num

/-- C1 (amended): every transaction produced by `parseRevolutCSV` and by the
row core of `parseGenericXLSX` has a non-negative amount (both store
`Math.abs` of the parsed value, carrying direction only in `type`); for
`parseMillenniumCSV` the amount is non-negative provided every credit field
that parses parses to a non-negative value (the amount is the debit when the
debit is positive, and the raw credit otherwise, with no absolute value
taken). -/
theorem extractor_amount_nonneg :
    (∀ text now tx, tx ∈ parseRevolutCSV text now → 0 ≤ tx.amount.toRat) ∧
    (∀ rows now tx, tx ∈ parseGenericXLSX rows now → 0 ≤ tx.amount.toRat) ∧
    (∀ text now,
      (∀ line ∈ jsSplit text '\n', ∀ d : Dec,
        jsParseFloat (millCreditStr line) = some d → d.isNeg = false) →
      ∀ tx, tx ∈ parseMillenniumCSV text now → 0 ≤ tx.amount.toRat) := by
  refine ⟨?_, ?_, ?_⟩
  · intro text now tx htx
    obtain ⟨j, l, _, hrow⟩ := mem_revRows now 1 _ htx
    obtain ⟨a, _, hamt, _⟩ := revRow_inv hrow
    rw [hamt]
    exact Dec.abs_toRat_nonneg a
  · intro rows now tx htx
    obtain ⟨j, l, _, hrow⟩ := mem_xlsxRows now 0 _ htx
    obtain ⟨a, hamt⟩ := xlsxRow_inv hrow
    rw [hamt]
    exact Dec.abs_toRat_nonneg a
  · intro text now hcred tx htx
    obtain ⟨j, l, hl, hrow⟩ := mem_millRows now 1 _ htx
    obtain ⟨db, cr, _, hcr, hamt⟩ := millRow_inv hrow
    have hlm : l ∈ jsSplit text '\n' := List.mem_of_mem_tail hl
    rw [hamt]
    by_cases hpos : db.isPos = true
    · rw [if_pos hpos]
      exact Dec.toRat_nonneg_of_pos db hpos
    · rw [if_neg hpos]
      exact Dec.toRat_nonneg_of_not_neg cr (hcred l hlm cr hcr)

/-- Witness for C1 (amended) at concrete inputs: a Format B row with an
empty debit and credit `3,25` — every credit on the two lines parses
non-negative, and the produced transaction (whose amount is the credit)
has a non-negative amount. -/
theorem extractor_amount_nonneg_witness :
    0 ≤ ((parseMillenniumCSV "header\n05-01-2024;;A;;3,25" 0).getD 0 pingoDoceTx).amount.toRat :=
  extractor_amount_nonneg.2.2 "header\n05-01-2024;;A;;3,25" 0 (by decide) _ (by decide)

/-- C4 (counterexample): on the 5-column Format B row `05-01-2024;;X;abc;5`
the date field is non-empty and the credit field parses (to 5), so only the
debit field fails to parse — by the claim the row should produce a
transaction, yet the parser skips it: a single failing field suffices for
rejection, because `debit + credit` is `NaN` whenever either operand is. -/
theorem millennium_single_nan_skips_counterexample :
    millDateStr "05-01-2024;;X;abc;5" ≠ "" ∧
    (jsSplit "05-01-2024;;X;abc;5" ';').length = 5 ∧
    jsParseFloat (millCreditStr "05-01-2024;;X;abc;5") = some ⟨5, 0⟩ ∧
    jsParseFloat (millDebitStr "05-01-2024;;X;abc;5") = none ∧
    parseMillenniumCSV "h\n05-01-2024;;X;abc;5" 0 = [] := by
  decide

/-- C4 (amended): a Format B row is skipped if and only if it has fewer than
5 semicolon-separated columns, or its date field (column 0) is empty, or at
least one of the debit (column 3) and credit (column 4) fields fails to
parse as a number — an empty or missing field being replaced by "0" and
hence parsing to 0. -/
theorem millennium_row_skip_iff (i : Nat) (line : String) (now : Nat) :
    millRow i line now = none ↔
      ((jsSplit line ';').length < 5 ∨ millDateStr line = "" ∨
        jsParseFloat (millDebitStr line) = none ∨
        jsParseFloat (millCreditStr line) = none) := by
  unfold millRow
  by_cases h5 : (jsSplit line ';').length < 5
  · simp [h5]
  · simp only [h5, if_false]
    cases hdb : jsParseFloat (millDebitStr line) with
    | none => simp [h5]
    | some db =>
      cases hcr : jsParseFloat (millCreditStr line) with
      | none => simp [h5]
      | some cr =>
        by_cases hd : millDateStr line = "" <;> simp [h5, hd]

/-- C5 (counterexample): on a six-column Format A row whose column 3 is
empty, the produced date is built from the raw content of column 2
(`2024-02-02`), not from column 4 (which holds the quoted description
`"D"`): the fallback column is 2, not 4 as the claim states. -/
theorem revolut_date_fallback_counterexample :
    ((jsSplit "a,b,2024-02-02,,\"D\",5" ',').getD 3 "") = "" ∧
    ((jsSplit "a,b,2024-02-02,,\"D\",5" ',').getD 2 "") = "2024-02-02" ∧
    ((jsSplit "a,b,2024-02-02,,\"D\",5" ',').getD 4 "") = "\"D\"" ∧
    (parseRevolutCSV "h\na,b,2024-02-02,,\"D\",5" 0).map (fun t => t.date) =
      [JSDate.fromString "2024-02-02"] ∧
    JSDate.fromString "2024-02-02" ≠ JSDate.fromString "\"D\"" := by
  decide

/-- C5 (amended): for every accepted Format A row, the transaction's date is
built from column 3 (0-indexed) of the comma split, except that when column
3 is empty the date is built from column 2 instead. -/
theorem revolut_date_primary_and_fallback (i : Nat) (line : String) (now : Nat)
    (tx : Transaction) (h : revRow i line now = some tx) :
    ((jsSplit line ',').getD 3 "" ≠ "" →
      tx.date = JSDate.fromString ((jsSplit line ',').getD 3 "")) ∧
    ((jsSplit line ',').getD 3 "" = "" →
      tx.date = JSDate.fromString ((jsSplit line ',').getD 2 "")) := by
  obtain ⟨a, _, _, hdate⟩ := revRow_inv h
  constructor
  · intro h3
    rw [hdate]
    unfold jsOrDefault
    rw [if_neg h3]
  · intro h3
    rw [hdate]
    unfold jsOrDefault
    rw [if_pos h3]

/-- Witness for C5 (amended) at concrete inputs: the row
`a,b,c,2024-01-01,d,5` is accepted and its date comes from column 3. -/
theorem revolut_date_primary_and_fallback_witness :
    revWitnessTx.date = JSDate.fromString ((jsSplit "a,b,c,2024-01-01,d,5" ',').getD 3 "") :=
  (revolut_date_primary_and_fallback 1 "a,b,c,2024-01-01,d,5" 0 revWitnessTx (by decide)).1
    (by decide)

end FinFlow
